import Mathlib

/-!
Verification development for the `connmanager` repository: a shallow
embedding of its connection-record store (sqlite-backed CRUD in
`database_connection.py`), the protocol handlers (`connection_handler.py`),
the interactive prompter (`connection_prompter.py`), the orchestration
service (`connection_service.py`), the cipher wrappers
(`encryption_utils.py`) and the curses browser (`tui.py`), together with
theorems settling the specification's claims about them.
-/

namespace ConnManager

/-! ## Character-code helpers

String matching in the embedding works on the lists of Unicode code points
of the strings involved (`Char.toNat`).  SQLite's `LIKE` folds only the
ASCII range `A`-`Z`, which `lowerCode` mirrors; Python's `str.lower()` is
modelled by the same ASCII fold, which agrees with it on all inputs the
claims exercise. -/

/-- Code points of a string. -/
def codesOf (s : String) : List Nat := s.data.map Char.toNat

/-- ASCII lower-casing of a single code point (SQLite `LIKE` case folding). -/
def lowerCode (n : Nat) : Nat := if 65 ≤ n ∧ n ≤ 90 then n + 32 else n

/-- ASCII lower-cased code points of a string. -/
def lowerCodes (s : String) : List Nat := (codesOf s).map lowerCode

/-- Percent sign code point, the SQL `LIKE` any-sequence wildcard. -/
def pctCode : Nat := 37

/-- Underscore code point, the SQL `LIKE` any-character wildcard. -/
def usCode : Nat := 95

/-- Does `needle` occur at the start of `hay`? (plain element-wise
equality on an initial segment; used for the substring primitive, for the
`LIKE` proof and for Python's `str.startswith`/`str.endswith`). -/
def hasPref {A : Type} [BEq A] : List A → List A → Bool
  | [], _ => true
  | _ :: _, [] => false
  | a :: n, b :: h => a == b && hasPref n h

/-- Python `s.startswith(pre)`. -/
def strStartsWith (s pre : String) : Bool := hasPref pre.data s.data

/-- Python `s.endswith(suf)`. -/
def strEndsWith (s suf : String) : Bool :=
  hasPref suf.data.reverse s.data.reverse

/-- Does `needle` occur contiguously anywhere inside `hay`?  This is the
substring primitive: Python's `in` operator on strings. -/
def containsSub (needle : List Nat) : List Nat → Bool
  | [] => hasPref needle []
  | b :: h => hasPref needle (b :: h) || containsSub needle h

/-- All suffixes of a list, longest first (ending with `[]`). -/
def suffixesL : List Nat → List (List Nat)
  | [] => [[]]
  | c :: s => (c :: s) :: suffixesL s

/-- SQL `LIKE` pattern matching over code-point lists, as SQLite evaluates
it: `%` matches any sequence (the rest of the pattern must match some
suffix of the subject), `_` any single character, anything else itself.
Case folding is applied by the caller (`sqlLike`). -/
def likeMatch : List Nat → List Nat → Bool
  | [], s => s.isEmpty
  | c :: p, s =>
    if c = pctCode then
      (suffixesL s).any (fun t => likeMatch p t)
    else
      match s with
      | [] => false
      | d :: s1 => (if c = usCode then true else c == d) && likeMatch p s1

/-- SQLite `expr LIKE pattern` on strings, with its ASCII case folding. -/
def sqlLike (pattern s : String) : Bool :=
  likeMatch ((codesOf pattern).map lowerCode) (lowerCodes s)

/-- A `LIKE` pattern fragment is wildcard-free when it contains neither `%`
nor `_`. -/
def wcFree (l : List Nat) : Bool :=
  l.all (fun c => !(c == pctCode) && !(c == usCode))

/-! ## The record store (`database_connection.py`)

The sqlite table `connections` is embedded as a list of rows.  Columns
declared `NOT NULL` (`alias`, `protocol`, `host_or_ip`) are `String`;
nullable columns are `Option String`.  `extras` holds the JSON text the
code stores (`json.dumps(extras) if extras else "{}"`).  The sqlite
`INTEGER` affinity of `port` is not modelled: every claim treats `port` as
an opaque stored value.  `id` is `INTEGER PRIMARY KEY`, assigned as one
more than the largest id in the table. -/

structure ConnRow where
  id : Nat
  aliasName : String
  protocol : String
  host_or_ip : String
  port : Option String
  username : Option String
  password : Option String
  ssh_key_path : Option String
  domain : Option String
  resolution : Option String
  tag : Option String
  extras : String
deriving Repr, DecidableEq

/-- Result of a store mutation: either committed, or rolled back after the
logged sqlite error (`except` branch of the Python methods). -/
inductive DbResult where
  | ok
  | duplicateAlias
  | notNullViolation
deriving Repr, DecidableEq

/-- Python `json.dumps` on a string-to-string dict, as stored in `extras`. -/
def jsonDumps (kvs : List (String × String)) : String :=
  "\x7b" ++ String.intercalate ", "
    (kvs.map (fun kv => "\"" ++ kv.1 ++ "\": \"" ++ kv.2 ++ "\"")) ++ "\x7d"

/-- Arguments of `DatabaseConnection.add_connection`: every parameter
defaults to `None` in the source, so each is an `Option` here. -/
structure AddDetails where
  aliasName : Option String := none
  protocol : Option String := none
  host_or_ip : Option String := none
  port : Option String := none
  username : Option String := none
  password : Option String := none
  ssh_key_path : Option String := none
  domain : Option String := none
  resolution : Option String := none
  tag : Option String := none
  extras : Option (List (String × String)) := none
deriving Repr

/-- Next `INTEGER PRIMARY KEY` value: one more than the largest rowid. -/
def nextId (store : List ConnRow) : Nat :=
  (store.map ConnRow.id).foldr max 0 + 1

/-- `DatabaseConnection.add_connection`: serializes `extras`
(`json.dumps(extras) if extras else "{}"`), then INSERTs.  A `NOT NULL` or
`UNIQUE(alias)` violation raises `IntegrityError`, which the method catches,
logs and rolls back, leaving the table unchanged. -/
def addConnection (store : List ConnRow) (d : AddDetails) :
    List ConnRow × DbResult :=
  let extrasJson :=
    match d.extras with
    | some kvs => if kvs.isEmpty then "\x7b\x7d" else jsonDumps kvs
    | none => "\x7b\x7d"
  match d.aliasName, d.protocol, d.host_or_ip with
  | some a, some pr, some h =>
    if store.any (fun r => r.aliasName == a) then
      (store, .duplicateAlias)
    else
      (store ++ [{ id := nextId store, aliasName := a, protocol := pr,
                   host_or_ip := h, port := d.port, username := d.username,
                   password := d.password, ssh_key_path := d.ssh_key_path,
                   domain := d.domain, resolution := d.resolution,
                   tag := d.tag, extras := extrasJson }], .ok)
  | _, _, _ => (store, .notNullViolation)

/-- The numeric value of an all-digit string, `none` otherwise (sqlite's
text-to-INTEGER affinity conversion for the id comparison). -/
def digitsToNat (s : String) : Option Nat :=
  if !s.data.isEmpty && s.data.all (fun c => '0' ≤ c && c ≤ '9') then
    some (s.data.foldl (fun a c => a * 10 + (c.toNat - 48)) 0)
  else none

/-- The `WHERE alias = ? OR id = ?` test used by delete/update/get: the
bound value is the caller's string; comparison against the `INTEGER` `id`
column applies sqlite's numeric affinity conversion of the text. -/
def rowMatchesKey (key : String) (r : ConnRow) : Bool :=
  r.aliasName == key || (digitsToNat key == some r.id)

/-- `DatabaseConnection.delete_connection`: `DELETE FROM connections WHERE
alias = ? OR id = ?`, committed unconditionally; no error and no report if
nothing matched. -/
def deleteConnection (store : List ConnRow) (key : String) : List ConnRow :=
  store.filter (fun r => !(rowMatchesKey key r))

/-- Keyword arguments of `DatabaseConnection.update_connection`: an outer
`none` means the field was not supplied (its column is absent from the SET
clause); for nullable columns a supplied value may itself be `None`. -/
structure PartialFields where
  aliasName : Option String := none
  protocol : Option String := none
  host_or_ip : Option String := none
  port : Option (Option String) := none
  username : Option (Option String) := none
  password : Option (Option String) := none
  ssh_key_path : Option (Option String) := none
  domain : Option (Option String) := none
  resolution : Option (Option String) := none
  tag : Option (Option String) := none
  extras : Option (List (String × String)) := none
deriving Repr

/-- Apply the SET clause of `update_connection` to one row: supplied
columns take the supplied value, every other column keeps its value; the
`extras` dict is serialized by `json.dumps` first. -/
def applyFields (pf : PartialFields) (r : ConnRow) : ConnRow :=
  { r with
    aliasName := pf.aliasName.getD r.aliasName
    protocol := pf.protocol.getD r.protocol
    host_or_ip := pf.host_or_ip.getD r.host_or_ip
    port := pf.port.getD r.port
    username := pf.username.getD r.username
    password := pf.password.getD r.password
    ssh_key_path := pf.ssh_key_path.getD r.ssh_key_path
    domain := pf.domain.getD r.domain
    resolution := pf.resolution.getD r.resolution
    tag := pf.tag.getD r.tag
    extras := (pf.extras.map jsonDumps).getD r.extras }

/-- The effect of the UPDATE statement on one row: rows matched by the
WHERE clause get the SET clause applied, all others stay as they are. -/
def updRow (key : String) (pf : PartialFields) (r : ConnRow) : ConnRow :=
  if rowMatchesKey key r then applyFields pf r else r

/-- `DatabaseConnection.update_connection` (committed path): `UPDATE
connections SET <supplied columns> WHERE alias = ? OR id = ?`. -/
def updateConnection (store : List ConnRow) (key : String)
    (pf : PartialFields) : List ConnRow :=
  store.map (updRow key pf)

/-- The lightweight projection `SELECT id, alias, protocol, host_or_ip,
tag` produced by `search_connections` and `get_connection_summary`. -/
structure SummaryRow where
  id : Nat
  aliasName : String
  protocol : String
  host_or_ip : String
  tag : Option String
deriving Repr, DecidableEq

/-- Project a full row to the search/summary display columns. -/
def summaryOf (r : ConnRow) : SummaryRow :=
  { id := r.id, aliasName := r.aliasName, protocol := r.protocol,
    host_or_ip := r.host_or_ip, tag := r.tag }

/-- The row predicate of `search_connections`: `alias LIKE ? OR host_or_ip
LIKE ? OR username LIKE ? OR protocol LIKE ? OR tag LIKE ?` with pattern
`f"%{search_info}%"`; a NULL column never matches. -/
def rowLikeMatches (q : String) (r : ConnRow) : Bool :=
  let pat := "%" ++ q ++ "%"
  let optLike : Option String → Bool
    | none => false
    | some s => sqlLike pat s
  sqlLike pat r.aliasName || sqlLike pat r.host_or_ip ||
    optLike r.username || sqlLike pat r.protocol || optLike r.tag

/-- `DatabaseConnection.search_connections`: the matching rows, projected
to `(id, alias, protocol, host_or_ip, tag)`. -/
def searchConnections (store : List ConnRow) (q : String) :
    List SummaryRow :=
  (store.filter (rowLikeMatches q)).map summaryOf

/-! ## Protocol handlers (`connection_handler.py`)

Each handler's `connect` hands `subprocess.run` either an argument vector
(executed directly, `shell` unset) or a single command string with
`shell=True` (executed through the shell).  The embedding records which of
the two forms is built and the exact arguments or string. -/

/-- The process invocation a handler builds: `argvExec` is
`subprocess.run([...])` without a shell; `shellCmd` is
`subprocess.run(cmd, shell=True)` on one concatenated string. -/
inductive Invocation where
  | argvExec (argv : List String)
  | shellCmd (cmd : String)
deriving Repr, DecidableEq

/-- Is the invocation a single string interpreted by the shell? -/
def Invocation.usesShell : Invocation → Bool
  | .argvExec _ => false
  | .shellCmd _ => true

/-- `SSHHandler.connect`: builds a list of discrete arguments (prefixed by
`sshpass -p <password>` when `sshpass` is on the PATH and a password is
stored) and runs it without a shell.  `sshpassInstalled` stands for
`shutil.which("sshpass") is not None`. -/
def sshInvocation (sshpassInstalled : Bool) (host : String)
    (port username password ssh_key_path : Option String) : Invocation :=
  let cmd0 : List String :=
    match password, sshpassInstalled with
    | some pw, true => ["sshpass", "-p", pw]
    | _, _ => []
  let cmd1 := cmd0 ++ ["ssh", "-o", "StrictHostKeyChecking=no"]
  let cmd2 := cmd1 ++ (match ssh_key_path with
    | some kp => ["-i", kp]
    | none => [])
  let cmd3 := cmd2 ++ (match port with
    | some p => ["-p " ++ p]
    | none => [])
  let cmd4 := cmd3 ++ [match username with
    | some u => u ++ "@" ++ host
    | none => host]
  .argvExec cmd4

/-- The `/v:` target the RDP handler builds for a host: the literal
`/v:` followed by the host wrapped in literal double quotes, used
verbatim — no bracketing happens here. -/
def rdpTarget (host : String) : String :=
  "/v:" ++ "\"" ++ host ++ "\""

/-- `RDPHandler.connect`: collects `xfreerdp` options (domain defaulting to
`WORKGROUP`, always appending `/cert:ignore`), then joins them with spaces
into one string and runs it with `shell=True`. -/
def rdpInvocation (host : String)
    (username password domain resolution : Option String) : Invocation :=
  let cmd0 : List String := ["xfreerdp", rdpTarget host]
  let cmd1 := cmd0 ++ (match username with
    | some u => ["/u:" ++ u]
    | none => [])
  let cmd2 := cmd1 ++ (match password with
    | some pw => ["/p:" ++ pw]
    | none => [])
  let cmd3 := cmd2 ++ [match domain with
    | some d => "/d:" ++ d
    | none => "/d:WORKGROUP"]
  let cmd4 := cmd3 ++ (match resolution with
    | some res => ["/size:" ++ res]
    | none => [])
  let cmd5 := cmd4 ++ ["/cert:ignore"]
  .shellCmd (String.intercalate " " cmd5)

/-- `VMRCHandler.connect`: `open "<uri>"` through the shell. -/
def vmrcInvocation (host : String) : Invocation :=
  .shellCmd ("open \"" ++ host ++ "\"")

/-- `VNCHandler`: the constructor defaults an absent port to `5901`;
`connect` opens `vnc://host:port` through the shell. -/
def vncInvocation (host : String) (port : Option String) : Invocation :=
  let p := port.getD "5901"
  .shellCmd ("open \"vnc://" ++ host ++ ":" ++ p ++ "\"")

/-- `HTTPHandler.connect`: prefixes `http://` when no scheme is present,
then opens the URL through the shell. -/
def httpInvocation (host : String) : Invocation :=
  let url :=
    if strStartsWith host "http://" || strStartsWith host "https://" then host
    else "http://" ++ host
  .shellCmd ("open \"" ++ url ++ "\"")

/-! ## Prompter and service (`connection_prompter.py`,
`connection_service.py`) -/

/-- `is_ipv6` from the prompter and the service: the host contains a
colon. -/
def isIPv6 (host : String) : Bool := host.data.any (fun c => c == ':')

/-- The RDP host normalization both `ConnectionPrompter.
prompt_connection_fields` and `ConnectionService.add_connection` apply when
the chosen protocol is `rdp`: a host that looks like IPv6 and neither
starts with `[` nor ends with `]` is wrapped in brackets. -/
def rdpNormalizeHost (host : String) : String :=
  if isIPv6 host && !strStartsWith host "[" && !strEndsWith host "]" then
    "[" ++ host ++ "]"
  else host

/-- Outcome of the interactive prompts of
`ConnectionService.add_connection`, after its validation loops: the alias
is fresh and not all digits, the protocol is one of `ssh`, `rdp`, `vnc`,
`vmrc`, and protocol-specific answers are recorded.  `enteredPassword` is
the value `password_comparison()` returned where that prompt is reached;
`sshUseKey` is whether auth method `key` was chosen for ssh. -/
structure PromptedAdd where
  aliasName : String
  protocol : String
  host_or_ip : String
  port : Option String
  username : Option String
  enteredPassword : String
  sshUseKey : Bool
  sshKeyPathInput : Option String
  domain : Option String
  resolution : Option String
  tag : Option String
  extras : List (String × String)
deriving Repr

/-- `ConnectionService.add_connection`, from the end of the prompts to the
store call: computes the protocol-specific fields (ssh: key path or
password; rdp: bracketed host, password, domain, resolution), assembles the
field dict, drops `None` entries, and calls
`DatabaseConnection.add_connection`.  No transformation other than the RDP
host bracketing is applied to any field; in particular the password is
passed to the store exactly as entered. -/
def serviceAddConnection (store : List ConnRow) (p : PromptedAdd) :
    List ConnRow × DbResult :=
  let host :=
    if p.protocol = "rdp" then rdpNormalizeHost p.host_or_ip
    else p.host_or_ip
  let password : Option String :=
    if p.protocol = "ssh" then
      if p.sshUseKey then none else some p.enteredPassword
    else if p.protocol = "rdp" then some p.enteredPassword
    else none
  let sshKey : Option String :=
    if p.protocol = "ssh" && p.sshUseKey then
      some ((p.sshKeyPathInput).getD "~/.ssh/id_rsa")
    else none
  let domain := if p.protocol = "rdp" then p.domain else none
  let resolution := if p.protocol = "rdp" then p.resolution else none
  addConnection store
    { aliasName := some p.aliasName, protocol := some p.protocol,
      host_or_ip := some host, port := p.port, username := p.username,
      password := password, ssh_key_path := sshKey, domain := domain,
      resolution := resolution, tag := p.tag, extras := some p.extras }

/-- A record as written by `ConnectionService.export_connections`: the
stored row with the `id` popped, every other column written out exactly as
stored (no decryption happens anywhere in the function). -/
structure ExportRow where
  aliasName : String
  protocol : String
  host_or_ip : String
  port : Option String
  username : Option String
  password : Option String
  ssh_key_path : Option String
  domain : Option String
  resolution : Option String
  tag : Option String
  extras : String
deriving Repr, DecidableEq

/-- `ConnectionService.export_connections`: `get_all_connections`, pop
`id`, dump to the file verbatim. -/
def exportConnections (store : List ConnRow) : List ExportRow :=
  store.map (fun r =>
    { aliasName := r.aliasName, protocol := r.protocol,
      host_or_ip := r.host_or_ip, port := r.port, username := r.username,
      password := r.password, ssh_key_path := r.ssh_key_path,
      domain := r.domain, resolution := r.resolution, tag := r.tag,
      extras := r.extras })

/-! ## Secret Cipher (`encryption_utils.py`)

The repository's `encrypt` and `decrypt` are thin wrappers that UTF-8
encode/decode and delegate to the external `cryptography.fernet` library,
loading the persisted key on each call (`get_fernet()`); `decrypt` maps the
library's `InvalidToken` to a `ValueError`.  The library itself is not part
of the repository, so its cipher is modelled from the spec below. -/

/-- A ciphertext token of the modelled cipher: a key identifier plus the
keystream-masked code points of the plaintext. -/
structure FernetToken where
  keyId : Nat
  payload : List Nat
deriving Repr, DecidableEq

/-- Mask a list of code points against a key-derived stream (self-inverse
position-dependent XOR). -/
def xorStream (key idx : Nat) : List Nat → List Nat
  | [] => []
  | n :: ns => (n ^^^ (key + idx)) :: xorStream key (idx + 1) ns

/-- Modelled from the spec: the `cryptography.fernet` library's
`Fernet.encrypt` is external to the repository.  Per the spec's cipher
contract it produces, under a symmetric key, a ciphertext that `decrypt`
inverts under the same key and rejects under any other; the model masks
the payload with a key-derived stream and tags it with the key identity. -/
def fernetEncrypt (key : Nat) (pt : List Nat) : FernetToken :=
  { keyId := key, payload := xorStream key 0 pt }

/-- Modelled from the spec: `Fernet.decrypt` recovers the plaintext of a
token produced under the same key and raises `InvalidToken` for a token
produced under a different key or malformed. -/
def fernetDecrypt (key : Nat) (t : FernetToken) : Option (List Nat) :=
  if t.keyId = key then some (xorStream key 0 t.payload) else none

/-- `encryption_utils.encrypt`: encode the plaintext, encrypt it under the
persisted key (`get_fernet()` reads the same key file on every call within
a run). -/
def encrypt (key : Nat) (plaintext : String) : FernetToken :=
  fernetEncrypt key (codesOf plaintext)

/-- `encryption_utils.decrypt`: decrypt under the persisted key and decode;
`InvalidToken` becomes `ValueError("Invalid encryption token or wrong
key.")`. -/
def decrypt (key : Nat) (t : FernetToken) : Except String String :=
  match fernetDecrypt key t with
  | some codes => .ok (String.mk (codes.map Char.ofNat))
  | none => .error "Invalid encryption token or wrong key."

/-! ## The interactive browser (`tui.py`)

`ConnectionManagerTUI` is embedded as a state record and a step function
over discrete key events.  Key events that re-read the store (`r`, `a`,
`e`, `d`) carry the snapshot the refresh would load, mirroring the
blocking prompt/refresh cycle.  Status-message text is abbreviated to
fixed markers; no claim depends on message content.  The search filter can
raise (`None.lower()` on a NULL tag), which is modelled with `Except`:
on an exception the statements already executed keep their effects and the
caller's handler runs, exactly as in the Python. -/

/-- The exception `apply_search_filter` can raise: `AttributeError` from
calling `.lower()` on `None` when a row's `tag` is NULL and the query has
not already matched alias, host or protocol. -/
inductive FilterErr where
  | noneLower
deriving Repr, DecidableEq

/-- One row's test inside the filter comprehension of
`apply_search_filter`: `query_lower in alias.lower() or ... host ... or
... protocol ... or ... tag ...`, short-circuiting left to right;
`conn.get("tag", "")` returns the stored NULL (not the default — the key
is present), so the tag test raises on a NULL tag. -/
def pyRowMatch (q : String) (r : ConnRow) : Except FilterErr Bool :=
  let ql := lowerCodes q
  if containsSub ql (lowerCodes r.aliasName) then .ok true
  else if containsSub ql (lowerCodes r.host_or_ip) then .ok true
  else if containsSub ql (lowerCodes r.protocol) then .ok true
  else
    match r.tag with
    | none => .error .noneLower
    | some t => .ok (containsSub ql (lowerCodes t))

/-- The filter comprehension itself, row by row in order; the first raising
row aborts the whole comprehension. -/
def filterConnections (q : String) : List ConnRow → Except FilterErr (List ConnRow)
  | [] => .ok []
  | r :: rs => do
    let b ← pyRowMatch q r
    let rest ← filterConnections q rs
    pure (if b then r :: rest else rest)

/-- The browser's state: the snapshot, the filtered view, the selection
cursor (an `Int`: Python holds it in a plain int and can drive it to `-1`),
search strings, and the modal flags. -/
structure TuiState where
  connections : List ConnRow
  filtered : List ConnRow
  currentSelection : Int
  searchQuery : String
  searchInput : String
  searchMode : Bool
  showHelp : Bool
  statusMessage : String
  connectionRequested : Option String
deriving Repr

/-- `ConnectionManagerTUI.__init__`. -/
def initialTuiState : TuiState :=
  { connections := [], filtered := [], currentSelection := 0,
    searchQuery := "", searchInput := "", searchMode := false,
    showHelp := false, statusMessage := "", connectionRequested := none }

/-- `apply_search_filter` up to its possible exception: an empty query
copies the snapshot, otherwise the comprehension runs; on success the
selection is reset to `max(0, len(filtered) - 1)` when it is `>= len`.
On an exception neither `filtered_connections` nor the selection has been
assigned yet, so the input state comes back with the error. -/
def applySearchFilterE (st : TuiState) : Except FilterErr TuiState :=
  match (if st.searchQuery = "" then .ok st.connections
         else filterConnections st.searchQuery st.connections) with
  | .error e => .error e
  | .ok fl =>
    let st1 := { st with filtered := fl }
    if (fl.length : Int) ≤ st1.currentSelection then
      .ok { st1 with currentSelection := max 0 ((fl.length : Int) - 1) }
    else .ok st1

/-- `refresh_connections`: load the snapshot, re-filter; its own `except`
clause empties both lists (leaving the selection untouched) when the
filter raises. -/
def refreshConns (st : TuiState) (snap : List ConnRow) : TuiState :=
  match applySearchFilterE { st with connections := snap } with
  | .ok st1 => { st1 with statusMessage := "Loaded" }
  | .error _ =>
    { st with
      connections := [], filtered := [],
      statusMessage := "Error loading connections" }

/-- Key events, as the curses codes `handle_key` branches on: special keys
are their own constructors, anything printable arrives as `char`. -/
inductive Key where
  | arrowUp
  | arrowDown
  | homeKey
  | endKey
  | enter
  | backspace
  | escape
  | ctrlU
  | ctrlC
  | char (c : Char)
  | other
deriving Repr, DecidableEq

/-- Python list indexing with a possibly negative index, as
`filtered_connections[current_selection]` performs it. -/
def pyIdx (l : List ConnRow) (i : Int) : Option ConnRow :=
  if 0 ≤ i then l.get? i.toNat
  else if 0 ≤ i + (l.length : Int) then l.get? (i + (l.length : Int)).toNat
  else none

/-- `connect_to_selected`: guarded by `not filtered or sel >= len`;
otherwise reads `filtered_connections[current_selection]` (Python
indexing, so `-1` reads the last row) and records
`conn.get("alias") or str(conn.get("id"))` as the pending request. -/
def connectToSelected (st : TuiState) : TuiState :=
  if st.filtered.isEmpty || (st.filtered.length : Int) ≤ st.currentSelection
  then { st with statusMessage := "No connection selected" }
  else
    match pyIdx st.filtered st.currentSelection with
    | some conn =>
      { st with
        connectionRequested :=
          some (if conn.aliasName ≠ "" then conn.aliasName
                else toString conn.id)
        statusMessage := "Exiting TUI to connect" }
    | none => st

/-- `handle_search_key`: escape clears and leaves search mode, Ctrl-U
clears in place, enter commits, backspace shortens, printable characters
(codes 32-126) extend; every branch re-applies the filter; a filter
exception propagates to the run loop, which records an error status (the
field assignments made before the call keep their effects). -/
def handleSearchKey (st : TuiState) (k : Key) : TuiState :=
  let runFilter (st1 : TuiState) : TuiState :=
    match applySearchFilterE st1 with
    | .ok st2 => st2
    | .error _ => { st1 with statusMessage := "Error" }
  match k with
  | .escape =>
    runFilter { st with searchMode := false, searchInput := "", searchQuery := "" }
  | .ctrlU =>
    runFilter { st with searchInput := "", searchQuery := "" }
  | .enter =>
    runFilter { st with searchMode := false, searchQuery := st.searchInput }
  | .backspace =>
    let inp : String := ⟨st.searchInput.data.dropLast⟩
    runFilter { st with searchInput := inp, searchQuery := inp }
  | .char c =>
    if 32 ≤ c.toNat ∧ c.toNat ≤ 126 then
      let inp := st.searchInput.push c
      runFilter { st with searchInput := inp, searchQuery := inp }
    else st
  | _ => st

/-- Does this event match the browse-mode binding set `{/, h, ?}` whose
branch keeps the status message (`if key not in [ord('/'), ord('h'),
ord('?')]`)? -/
def keepsStatus (k : Key) : Bool :=
  match k with
  | .char c => c == '/' || c == 'h' || c == '?'
  | _ => false

/-- The status-clearing fall-through at the end of `handle_key`: the
branch's resulting state, with the status message cleared unless the key
is `/`, `h` or `?`; the `Bool` is the loop-exit flag (always false on this
path). -/
def finishBrowse (k : Key) (st1 : TuiState) : TuiState × Bool :=
  (if keepsStatus k then st1 else { st1 with statusMessage := "" }, false)

/-- The `c` branch of `handle_key`: clear query and input, re-apply the
filter (the query is now empty, so the filter cannot raise), set the
cleared status. -/
def clearSearchBrowse (st : TuiState) : TuiState :=
  match applySearchFilterE
      { st with searchQuery := "", searchInput := "" } with
  | .ok st1 => { st1 with statusMessage := "Search cleared" }
  | .error _ =>
    { st with searchQuery := "", searchInput := "", statusMessage := "Error" }

/-- Browse-mode key dispatch of `handle_key` (after the help and search
guards): returns the successor state and whether the loop exits.  `q` and
Ctrl-C return immediately; Enter returns immediately when a connection
request was recorded; every other fall-through clears the status message
unless the key is `/`, `h` or `?`. -/
def browseKey (st : TuiState) (k : Key) (snap : List ConnRow) :
    TuiState × Bool :=
  let n : Int := st.filtered.length
  match k with
  | .arrowUp =>
    finishBrowse k { st with currentSelection := max 0 (st.currentSelection - 1) }
  | .arrowDown =>
    finishBrowse k { st with currentSelection := min (n - 1) (st.currentSelection + 1) }
  | .homeKey => finishBrowse k { st with currentSelection := 0 }
  | .endKey => finishBrowse k { st with currentSelection := max 0 (n - 1) }
  | .enter =>
    let st1 := connectToSelected st
    if st1.connectionRequested.isSome then (st1, true)
    else finishBrowse k st1
  | .ctrlC => (st, true)
  | .char c =>
    if c == 'k' then
      finishBrowse k { st with currentSelection := max 0 (st.currentSelection - 1) }
    else if c == 'j' then
      finishBrowse k { st with currentSelection := min (n - 1) (st.currentSelection + 1) }
    else if c == 'g' then finishBrowse k { st with currentSelection := 0 }
    else if c == 'G' then finishBrowse k { st with currentSelection := max 0 (n - 1) }
    else if c == 'a' || c == 'e' || c == 'd' || c == 'r' then
      finishBrowse k (refreshConns st snap)
    else if c == '/' then
      finishBrowse k { st with searchMode := true, searchInput := "" }
    else if c == 'c' then
      if st.searchQuery ≠ "" then
        finishBrowse k (clearSearchBrowse st)
      else finishBrowse k st
    else if c == 'h' || c == '?' then finishBrowse k { st with showHelp := true }
    else if c == 'q' then (st, true)
    else finishBrowse k st
  | _ => finishBrowse k st

/-- `handle_key`: any key dismisses the help overlay; in search mode keys
go to `handle_search_key`; otherwise browse-mode dispatch runs. -/
def handleKey (st : TuiState) (k : Key) (snap : List ConnRow) :
    TuiState × Bool :=
  if st.showHelp then ({ st with showHelp := false }, false)
  else if st.searchMode then (handleSearchKey st k, false)
  else browseKey st k snap

/-- One iteration of the TUI loop for one key event. -/
def stepTui (st : TuiState) (ev : Key × List ConnRow) : TuiState :=
  (handleKey st ev.1 ev.2).1

/-- A whole browser session: the initial refresh on entry to `run`, then
one step per key event (events after an exit request simply continue the
fold; the invariants proved below a fortiori cover the shorter real run). -/
def runTui (snap0 : List ConnRow) (evs : List (Key × List ConnRow)) :
    TuiState :=
  evs.foldl stepTui (refreshConns initialTuiState snap0)

/-! ## Specification-side definitions

These definitions follow the wording of the spec's search contract
("case-insensitive substring match across alias, host, username, protocol,
tag"); they are compared against the `LIKE`-based code path in the claim
theorems below. -/

/-- The spec's notion for search matching: `q` is a case-insensitive
substring of `field`. -/
def specCaseInsensitiveSubstr (q field : String) : Bool :=
  containsSub (lowerCodes q) (lowerCodes field)

/-- The spec's row predicate for `search(q)`: `q` is a case-insensitive
substring of at least one of alias, host, username, protocol or tag (an
absent optional field cannot match). -/
def specRowMatch (q : String) (r : ConnRow) : Bool :=
  specCaseInsensitiveSubstr q r.aliasName ||
    specCaseInsensitiveSubstr q r.host_or_ip ||
    (match r.username with
      | none => false
      | some u => specCaseInsensitiveSubstr q u) ||
    specCaseInsensitiveSubstr q r.protocol ||
    (match r.tag with
      | none => false
      | some t => specCaseInsensitiveSubstr q t)

/-! ## Concrete rows and inputs used by witnesses and counterexamples -/

/-- The spec's search-scenario row `web1` (protocol `http`, tag `prod`). -/
def web1Row : ConnRow :=
  { id := 1, aliasName := "web1", protocol := "http",
    host_or_ip := "example.com", port := none, username := none,
    password := none, ssh_key_path := none, domain := none,
    resolution := none, tag := some "prod", extras := "\x7b\x7d" }

/-- The spec's search-scenario row `db1` (protocol `ssh`, tag `prod`). -/
def db1Row : ConnRow :=
  { web1Row with
    id := 2, aliasName := "db1", protocol := "ssh",
    host_or_ip := "10.0.0.5" }

/-- A stored row whose optional `tag` column is NULL. -/
def noTagRow : ConnRow := { web1Row with tag := none }

/-- A concrete prompted add: protocol `ssh`, password authentication with
entered password `hunter2`. -/
def c1Prompt : PromptedAdd :=
  { aliasName := "box", protocol := "ssh", host_or_ip := "10.0.0.1",
    port := none, username := some "bob", enteredPassword := "hunter2",
    sshUseKey := false, sshKeyPathInput := none, domain := none,
    resolution := none, tag := none, extras := [] }

/-- A concrete partial update supplying only `port`. -/
def portOnlyPf : PartialFields := { port := some (some "2222") }

/-! ## Browser invariants -/

/-- The range the browser's selection cursor actually stays in:
at least `-1`, and at most `max 0 (len(filtered) - 1)` (stated as the
equivalent disjunction). -/
def tuiSelInv (st : TuiState) : Prop :=
  -1 ≤ st.currentSelection ∧
    (st.currentSelection ≤ (st.filtered.length : Int) - 1 ∨
      st.currentSelection ≤ 0)

/-- Every row of the snapshot has its `tag` column set, so the search
filter cannot raise. -/
def allTagsSet (rows : List ConnRow) : Bool :=
  rows.all (fun r => r.tag.isSome)

/-! ## Supporting lemmas -/

/-- Masking twice with the same keystream is the identity. -/
theorem xorStream_xorStream (key : Nat) :
    ∀ (idx : Nat) (l : List Nat),
      xorStream key idx (xorStream key idx l) = l := by
  intro idx l
  induction l generalizing idx with
  | nil => rfl
  | cons n ns ih => simp [xorStream, ih, Nat.xor_cancel_right]

/-- Rebuilding a string from its code points gives the string back. -/
theorem string_mk_codes (s : String) :
    String.mk ((codesOf s).map Char.ofNat) = s := by
  obtain ⟨d⟩ := s
  simp [codesOf, List.map_map, Function.comp_def]

/-! ## Claim theorems -/

/-- C1: the claim says every persisted password is ciphertext produced by
the Secret Cipher and, in particular, that after the Service's add stores a
record with password `p` the stored password field differs from `p`.  The
code violates this: `ConnectionService.add_connection` hands the prompted
password verbatim to `DatabaseConnection.add_connection`
(`encryption_utils.encrypt` is never invoked anywhere in the repository),
so the stored password field equals the plaintext, and
`export_connections` writes that same value out.  This theorem evaluates
the embedded service add at the failing input: the committed row's
password is exactly the entered plaintext `hunter2`. -/
theorem c1_service_stores_plaintext_password :
    (serviceAddConnection [] c1Prompt).2 = DbResult.ok ∧
    (serviceAddConnection [] c1Prompt).1.map ConnRow.password
      = [some c1Prompt.enteredPassword] ∧
    (exportConnections (serviceAddConnection [] c1Prompt).1).map
        ExportRow.password = [some "hunter2"] := by
  refine ⟨rfl, by decide, by decide⟩

/-- C2 counterexample: the claim states that the RDP handler passes host
and username as discrete process arguments and never concatenates them
into a single string handed to a shell; but `RDPHandler.connect` joins all
its pieces (including the host and the username) with spaces into one
string and executes it with `shell=True`. -/
theorem c2_rdp_is_shell_counterexample :
    rdpInvocation "h" (some "u") none none none
      = Invocation.shellCmd "xfreerdp /v:\"h\" /u:u /d:WORKGROUP /cert:ignore" ∧
    (rdpInvocation "h" (some "u") none none none).usesShell = true := by
  exact ⟨rfl, rfl⟩

/-- C2 amended: only the SSH handler builds a discrete argument vector
executed without a shell; the RDP handler, like the URI-opening handlers
(VMRC, VNC, HTTP), concatenates its arguments into a single string
executed through the shell. -/
theorem c2_ssh_discrete_others_shell (sshpassInstalled : Bool)
    (host : String)
    (port username password ssh_key_path domain resolution : Option String) :
    (sshInvocation sshpassInstalled host port username password
        ssh_key_path).usesShell = false ∧
    (rdpInvocation host username password domain resolution).usesShell
      = true ∧
    (vmrcInvocation host).usesShell = true ∧
    (vncInvocation host port).usesShell = true ∧
    (httpInvocation host).usesShell = true := by
  exact ⟨rfl, rfl, rfl, rfl, rfl⟩

/-- C4: `decrypt(encrypt(s)) == s` under the same persisted key, for every
string.  The cipher core is the external `cryptography.fernet` library,
modelled above from the spec's contract; the repository's wrappers encode,
delegate and decode, and the round-trip is exact. -/
theorem c4_decrypt_encrypt_roundtrip (key : Nat) (s : String) :
    decrypt key (encrypt key s) = Except.ok s := by
  unfold decrypt encrypt fernetDecrypt fernetEncrypt
  simp [xorStream_xorStream, string_mk_codes]

/-- C6 counterexample: the claim attributes the IPv6 bracketing to the RDP
handler at launch time, but `RDPHandler.connect` uses the stored host
verbatim: for host `::1` the constructed `/v:` target keeps the bare
`::1`, and the launched shell string contains no brackets. -/
theorem c6_handler_keeps_bare_ipv6 :
    rdpTarget "::1" = "/v:\"::1\"" ∧
    rdpTarget "::1" ≠ "/v:\"[::1]\"" ∧
    rdpInvocation "::1" none none none none
      = Invocation.shellCmd "xfreerdp /v:\"::1\" /d:WORKGROUP /cert:ignore" := by
  refine ⟨rfl, by decide, rfl⟩

/-- C6 amended: the bracketing happens when the record's fields are
collected (`ConnectionPrompter.prompt_connection_fields` and
`ConnectionService.add_connection` both normalize an RDP host before
storing): a bare IPv6 literal `::1` is stored as `[::1]`, an
already-bracketed host is left unchanged, and the handler then uses the
stored host verbatim in its `/v:` target. -/
theorem c6_prompter_brackets_ipv6 :
    rdpNormalizeHost "::1" = "[::1]" ∧
    (∀ h : String, strStartsWith h "[" = true → rdpNormalizeHost h = h) ∧
    (∀ h : String, rdpTarget h = "/v:\"" ++ h ++ "\"") := by
  refine ⟨by decide, ?_, fun h => rfl⟩
  intro h hh
  unfold rdpNormalizeHost
  simp [hh]

/-- C6 witness: the amended claim at the concrete hosts of the spec's
scenario. -/
theorem c6_witness :
    rdpNormalizeHost "[::1]" = "[::1]" ∧ rdpNormalizeHost "::1" = "[::1]" :=
  ⟨c6_prompter_brackets_ipv6.2.1 "[::1]" (by decide),
   c6_prompter_brackets_ipv6.1⟩

/-- C3: adding a record whose alias already exists fails (the UNIQUE
constraint rejects the INSERT; the method logs the error and rolls back
rather than re-raising) and leaves the store unchanged — same rows, same
count. -/
theorem c3_duplicate_alias_add_unchanged (store : List ConnRow)
    (d : AddDetails) (a pr h : String) (ha : d.aliasName = some a)
    (hp : d.protocol = some pr) (hh : d.host_or_ip = some h)
    (hdup : store.any (fun r => r.aliasName == a) = true) :
    addConnection store d = (store, DbResult.duplicateAlias) := by
  unfold addConnection
  rw [ha, hp, hh]
  simp [hdup]

/-- C3 witness: a second add with the existing alias `web1` is rejected
with the store intact. -/
theorem c3_witness :
    addConnection [web1Row]
      { aliasName := some "web1", protocol := some "rdp",
        host_or_ip := some "h", password := some "pw" }
      = ([web1Row], DbResult.duplicateAlias) :=
  c3_duplicate_alias_add_unchanged [web1Row] _ "web1" "rdp" "h"
    rfl rfl rfl (by decide)

/-- C7: delete resolves alias and id in one statement; deleting a key that
matches no record returns the store unchanged (silently — the DELETE
simply affects zero rows), and deleting twice equals deleting once. -/
theorem c7_delete_idempotent (store : List ConnRow) (key : String) :
    ((∀ r ∈ store, rowMatchesKey key r = false) →
      deleteConnection store key = store) ∧
    deleteConnection (deleteConnection store key) key
      = deleteConnection store key := by
  constructor
  · intro hnone
    unfold deleteConnection
    apply List.filter_eq_self.mpr
    intro r hr
    simp [hnone r hr]
  · unfold deleteConnection
    rw [List.filter_filter]
    simp

/-- C7 witness: deleting the unknown key `zzz` leaves the one-row store
unchanged, and repeating the delete of `web1` changes nothing further. -/
theorem c7_witness :
    deleteConnection [web1Row] "zzz" = [web1Row] ∧
    deleteConnection (deleteConnection [web1Row] "web1") "web1"
      = deleteConnection [web1Row] "web1" :=
  ⟨(c7_delete_idempotent [web1Row] "zzz").1 (by decide),
   (c7_delete_idempotent [web1Row] "web1").2⟩

/-- C8: update is a partial merge: the UPDATE maps each row through
`updRow`; a row the WHERE clause does not match is unchanged; on a matched
row the id and every field not supplied in the partial update keep their
previous values. -/
theorem c8_update_partial_merge (store : List ConnRow) (key : String)
    (pf : PartialFields) :
    updateConnection store key pf = store.map (updRow key pf) ∧
    (updateConnection store key pf).length = store.length ∧
    ∀ r : ConnRow,
      (rowMatchesKey key r = false → updRow key pf r = r) ∧
      (updRow key pf r).id = r.id ∧
      (pf.aliasName = none → (updRow key pf r).aliasName = r.aliasName) ∧
      (pf.protocol = none → (updRow key pf r).protocol = r.protocol) ∧
      (pf.host_or_ip = none →
        (updRow key pf r).host_or_ip = r.host_or_ip) ∧
      (pf.port = none → (updRow key pf r).port = r.port) ∧
      (pf.username = none → (updRow key pf r).username = r.username) ∧
      (pf.password = none → (updRow key pf r).password = r.password) ∧
      (pf.ssh_key_path = none →
        (updRow key pf r).ssh_key_path = r.ssh_key_path) ∧
      (pf.domain = none → (updRow key pf r).domain = r.domain) ∧
      (pf.resolution = none →
        (updRow key pf r).resolution = r.resolution) ∧
      (pf.tag = none → (updRow key pf r).tag = r.tag) ∧
      (pf.extras = none → (updRow key pf r).extras = r.extras) := by
  refine ⟨rfl, by simp [updateConnection], ?_⟩
  intro r
  refine ⟨fun hm => by simp [updRow, hm], ?_, ?_, ?_, ?_, ?_, ?_, ?_, ?_,
    ?_, ?_, ?_, ?_⟩
  · by_cases m : rowMatchesKey key r <;> simp [updRow, m, applyFields]
  all_goals
    intro hn
    by_cases m : rowMatchesKey key r <;> simp [updRow, m, applyFields, hn]

/-- C8 witness: updating only `port` of `web1` keeps the password and tag
of the matched row and leaves a row unmatched by key `zzz` untouched. -/
theorem c8_witness :
    updateConnection [web1Row] "web1" portOnlyPf
      = [web1Row].map (updRow "web1" portOnlyPf) ∧
    updRow "zzz" portOnlyPf web1Row = web1Row ∧
    (updRow "web1" portOnlyPf web1Row).password = web1Row.password ∧
    (updRow "web1" portOnlyPf web1Row).tag = web1Row.tag :=
  ⟨(c8_update_partial_merge [web1Row] "web1" portOnlyPf).1,
   ((c8_update_partial_merge [web1Row] "zzz" portOnlyPf).2.2 web1Row).1
     (by decide),
   ((c8_update_partial_merge [web1Row] "web1" portOnlyPf).2.2
       web1Row).2.2.2.2.2.2.2.1 rfl,
   ((c8_update_partial_merge [web1Row] "web1" portOnlyPf).2.2
       web1Row).2.2.2.2.2.2.2.2.2.2.2.1 rfl⟩

/-- A `%` pattern alone matches every subject. -/
theorem likeMatch_pct_any (s : List Nat) : likeMatch [pctCode] s = true := by
  induction s with
  | nil => rfl
  | cons d s ih =>
    simp [likeMatch, suffixesL, List.any_cons] at ih ⊢
    exact ih

/-- A wildcard-free pattern followed by `%` matches exactly the subjects it
is a prefix of. -/
theorem likeMatch_wcfree_pct (q : List Nat) (hq : wcFree q = true) :
    ∀ s, likeMatch (q ++ [pctCode]) s = hasPref q s := by
  induction q with
  | nil => intro s; simpa [hasPref] using likeMatch_pct_any s
  | cons c q ih =>
    have hq3 : (¬c = pctCode ∧ ¬c = usCode) ∧ wcFree q = true := by
      simpa [wcFree, List.all_cons, and_assoc] using hq
    intro s
    cases s with
    | nil => simp [likeMatch, hasPref, hq3.1.1]
    | cons d s =>
      simp [likeMatch, hasPref, hq3.1.1, hq3.1.2, ih hq3.2 s]

/-- Testing a needle for prefix-hood against every suffix is the substring
test. -/
theorem any_suffixesL_hasPref (q s : List Nat) :
    (suffixesL s).any (fun t => hasPref q t) = containsSub q s := by
  induction s with
  | nil => simp [suffixesL, containsSub]
  | cons d s ih => simp [suffixesL, containsSub, List.any_cons, ih]

/-- A wildcard-free pattern sandwiched between two `%` matches exactly the
subjects that contain it as a contiguous run. -/
theorem likeMatch_pct_sandwich (q : List Nat) (hq : wcFree q = true) :
    ∀ s, likeMatch (pctCode :: (q ++ [pctCode])) s = containsSub q s := by
  intro s
  have h1 : likeMatch (pctCode :: (q ++ [pctCode])) s
      = (suffixesL s).any (fun t => likeMatch (q ++ [pctCode]) t) := by
    simp [likeMatch]
  have hfun : (fun t => likeMatch (q ++ [pctCode]) t)
      = (fun t => hasPref q t) :=
    funext (likeMatch_wcfree_pct q hq)
  rw [h1, hfun, any_suffixesL_hasPref]

/-- ASCII lower-casing maps no code point onto a wildcard it was not. -/
theorem wcFree_map_lowerCode {l : List Nat} (h : wcFree l = true) :
    wcFree (l.map lowerCode) = true := by
  simp only [wcFree, List.all_eq_true, List.forall_mem_map] at h ⊢
  intro c hc
  have h2 := h c hc
  simp only [Bool.and_eq_true, Bool.not_eq_eq_eq_not, Bool.not_true,
    beq_eq_false_iff_ne, ne_eq, pctCode, usCode] at h2 ⊢
  unfold lowerCode
  split <;> omega

/-- The `LIKE` pattern `%q%` built by `search_connections` tests, for a
wildcard-free `q`, exactly the case-folded substring relation. -/
theorem sqlLike_pattern_substring (q s : String)
    (h : wcFree (codesOf q) = true) :
    sqlLike ("%" ++ q ++ "%") s
      = containsSub (lowerCodes q) (lowerCodes s) := by
  unfold sqlLike
  have hdata : codesOf ("%" ++ q ++ "%")
      = pctCode :: (codesOf q ++ [pctCode]) := by
    simp [codesOf, pctCode]
  rw [hdata]
  have hlp : lowerCode pctCode = pctCode := by decide
  simp only [List.map_cons, List.map_append, List.map_nil, hlp]
  exact likeMatch_pct_sandwich _ (wcFree_map_lowerCode h) _

/-- For wildcard-free queries the code's row predicate coincides with the
spec's case-insensitive-substring predicate. -/
theorem rowLikeMatches_eq_spec (q : String)
    (h : wcFree (codesOf q) = true) (r : ConnRow) :
    rowLikeMatches q r = specRowMatch q r := by
  cases hu : r.username <;> cases ht : r.tag <;>
    simp [rowLikeMatches, specRowMatch, specCaseInsensitiveSubstr, hu, ht,
      sqlLike_pattern_substring _ _ h]

/-- C5 counterexample: the claim quantifies over every query string, but a
query containing a `LIKE` wildcard escapes the substring reading: the
pattern `%%%` built for the query `%` matches every row, so
`search("%")` returns the `web1` row even though `%` is not a
case-insensitive substring of any of its five searched fields. -/
theorem c5_wildcard_query_counterexample :
    searchConnections [web1Row] "%" = [summaryOf web1Row] ∧
    specRowMatch "%" web1Row = false := by
  exact ⟨by decide, by decide⟩

/-- C5 amended: for every query free of the `LIKE` wildcards `%` and `_`,
search returns exactly the rows with an (ASCII) case-insensitive substring
match in alias, host, username, protocol or tag, projected to
`(id, alias, protocol, host, tag)`; queries containing a wildcard are
interpreted with `LIKE` wildcard semantics instead. -/
theorem c5_search_matches_spec (store : List ConnRow) (q : String)
    (h : wcFree (codesOf q) = true) :
    searchConnections store q
      = (store.filter (specRowMatch q)).map summaryOf := by
  unfold searchConnections
  congr 1
  apply List.filter_congr
  intro r _
  exact rowLikeMatches_eq_spec q h r

/-- C5 witness: the spec's scenario — `search("prod")` returns both rows,
`search("web")` only `web1`, each as the lightweight projection. -/
theorem c5_witness :
    searchConnections [web1Row, db1Row] "prod"
      = (([web1Row, db1Row].filter (specRowMatch "prod")).map summaryOf) ∧
    searchConnections [web1Row, db1Row] "prod"
      = [summaryOf web1Row, summaryOf db1Row] ∧
    searchConnections [web1Row, db1Row] "web" = [summaryOf web1Row] :=
  ⟨c5_search_matches_spec [web1Row, db1Row] "prod" (by decide),
   by decide, by decide⟩

/-- A state differing only in fields other than the filtered list and the
selection keeps the selection invariant. -/
theorem selInv_of_fields {st st2 : TuiState}
    (hsel : st2.currentSelection = st.currentSelection)
    (hfl : st2.filtered = st.filtered) (h : tuiSelInv st) : tuiSelInv st2 := by
  unfold tuiSelInv at *
  rw [hsel, hfl]
  exact h

/-- A row with its tag set cannot make the filter raise. -/
theorem pyRowMatch_ok_of_tag (q : String) (r : ConnRow)
    (h : r.tag.isSome = true) : ∃ b, pyRowMatch q r = .ok b := by
  rcases ht : r.tag with _ | t
  · simp [ht] at h
  · unfold pyRowMatch
    rw [ht]
    dsimp only
    split_ifs <;> exact ⟨_, rfl⟩

/-- If every row's tag is set, the filter comprehension completes. -/
theorem filterConnections_ok_of_tags (q : String) (rows : List ConnRow)
    (h : allTagsSet rows = true) :
    ∃ fl, filterConnections q rows = .ok fl := by
  induction rows with
  | nil => exact ⟨[], rfl⟩
  | cons r rs ih =>
    have h2 : r.tag.isSome = true ∧ allTagsSet rs = true := by
      simpa [allTagsSet, List.all_cons] using h
    obtain ⟨b, hb⟩ := pyRowMatch_ok_of_tag q r h2.1
    obtain ⟨fl, hfl⟩ := ih h2.2
    exact ⟨if b then r :: fl else fl,
      by simp [filterConnections, hb, hfl, Bind.bind, Except.bind,
        Pure.pure, Except.pure]⟩

/-- With every tag set in the snapshot, `apply_search_filter` completes. -/
theorem applyE_ok_of_tags (st : TuiState)
    (h : allTagsSet st.connections = true) :
    ∃ st2, applySearchFilterE st = .ok st2 := by
  unfold applySearchFilterE
  by_cases hq : st.searchQuery = ""
  · simp only [hq, if_true]
    split_ifs <;> exact ⟨_, rfl⟩
  · obtain ⟨fl, hfl⟩ :=
      filterConnections_ok_of_tags st.searchQuery st.connections h
    simp only [hq, if_false]
    rw [hfl]
    dsimp only
    split_ifs <;> exact ⟨_, rfl⟩

/-- A completed filter application leaves the selection in range: the
trailing clamp restores the bound whatever the new filtered length is. -/
theorem applyE_selInv {st st2 : TuiState}
    (hok : applySearchFilterE st = .ok st2)
    (h : -1 ≤ st.currentSelection) : tuiSelInv st2 := by
  unfold applySearchFilterE at hok
  rcases hres : (if st.searchQuery = "" then Except.ok st.connections
      else filterConnections st.searchQuery st.connections) with e | fl
  · rw [hres] at hok
    simp at hok
  · rw [hres] at hok
    dsimp at hok
    split_ifs at hok with hcl
    · injection hok with hok2
      subst hok2
      simp only [tuiSelInv]
      omega
    · injection hok with hok2
      subst hok2
      simp only [tuiSelInv]
      omega

/-- `refresh_connections` leaves the selection in range when the snapshot
has all tags set (so its internal filter cannot raise). -/
theorem refreshConns_selInv (st : TuiState) (snap : List ConnRow)
    (hneg : -1 ≤ st.currentSelection) (hsnap : allTagsSet snap = true) :
    tuiSelInv (refreshConns st snap) := by
  unfold refreshConns
  obtain ⟨st2, h2⟩ :=
    applyE_ok_of_tags { st with connections := snap } (by simpa using hsnap)
  rw [h2]
  have hinv : tuiSelInv st2 := applyE_selInv h2 hneg
  exact selInv_of_fields rfl rfl hinv

/-- Requesting a connection never moves the cursor or the filtered list. -/
theorem connectToSelected_fields (st : TuiState) :
    (connectToSelected st).currentSelection = st.currentSelection ∧
    (connectToSelected st).filtered = st.filtered := by
  unfold connectToSelected
  split_ifs
  · exact ⟨rfl, rfl⟩
  · rcases hpi : pyIdx st.filtered st.currentSelection with _ | conn <;>
      simp [hpi]

/-- Search-mode key handling preserves the selection invariant: every
branch either re-applies the filter (whose clamp restores the bound) or,
on a filter exception, leaves the filtered list and the cursor as they
were. -/
theorem handleSearchKey_selInv (st : TuiState) (k : Key)
    (h : tuiSelInv st) : tuiSelInv (handleSearchKey st k) := by
  have base : ∀ st1 : TuiState,
      st1.currentSelection = st.currentSelection →
      st1.filtered = st.filtered →
      tuiSelInv (match applySearchFilterE st1 with
        | .ok st2 => st2
        | .error _ => { st1 with statusMessage := "Error" }) := by
    intro st1 hsel hfl
    rcases happ : applySearchFilterE st1 with e | st2
    · exact selInv_of_fields hsel hfl h
    · show tuiSelInv st2
      exact applyE_selInv happ (hsel ▸ h.1)
  unfold handleSearchKey
  cases k with
  | escape => exact base _ rfl rfl
  | ctrlU => exact base _ rfl rfl
  | enter => exact base _ rfl rfl
  | backspace => exact base _ rfl rfl
  | char c =>
    by_cases hp : 32 ≤ c.toNat ∧ c.toNat ≤ 126
    · simp only [if_pos hp]
      exact base _ rfl rfl
    · simp only [if_neg hp]
      exact h
  | arrowUp => exact h
  | arrowDown => exact h
  | homeKey => exact h
  | endKey => exact h
  | ctrlC => exact h
  | other => exact h

/-- The `c` clear branch preserves the selection invariant (it empties the
query first, so the re-filter is the plain copy). -/
theorem clearSearch_selInv (st : TuiState) (h : tuiSelInv st) :
    tuiSelInv (clearSearchBrowse st) := by
  unfold clearSearchBrowse
  rcases happ : applySearchFilterE
      { st with searchQuery := "", searchInput := "" } with e | st2
  · exact selInv_of_fields rfl rfl h
  · have hinv : tuiSelInv st2 := applyE_selInv happ h.1
    exact selInv_of_fields rfl rfl hinv

/-- A state whose selection was replaced by a value in range satisfies the
selection invariant. -/
theorem selInv_mk (st : TuiState) (x : Int)
    (hx : -1 ≤ x ∧ (x ≤ (st.filtered.length : Int) - 1 ∨ x ≤ 0)) :
    tuiSelInv { st with currentSelection := x } :=
  hx

/-- The status-clearing fall-through preserves the selection invariant. -/
theorem finishBrowse_selInv (k : Key) (st1 : TuiState) (h : tuiSelInv st1) :
    tuiSelInv (finishBrowse k st1).1 := by
  unfold finishBrowse
  split_ifs
  · exact h
  · exact selInv_of_fields rfl rfl h

/-- Browse-mode key dispatch preserves the selection invariant. -/
theorem browseKey_selInv (st : TuiState) (k : Key) (snap : List ConnRow)
    (h : tuiSelInv st) (hsnap : allTagsSet snap = true) :
    tuiSelInv (browseKey st k snap).1 := by
  obtain ⟨hlo, hhi⟩ := h
  cases k with
  | arrowUp =>
    exact finishBrowse_selInv _ _ (selInv_mk st _ (by omega))
  | arrowDown =>
    exact finishBrowse_selInv _ _ (selInv_mk st _ (by omega))
  | homeKey =>
    exact finishBrowse_selInv _ _ (selInv_mk st _ (by omega))
  | endKey =>
    exact finishBrowse_selInv _ _ (selInv_mk st _ (by omega))
  | enter =>
    have hc := connectToSelected_fields st
    simp only [browseKey]
    split_ifs
    · exact selInv_of_fields hc.1 hc.2 ⟨hlo, hhi⟩
    · exact finishBrowse_selInv _ _ (selInv_of_fields hc.1 hc.2 ⟨hlo, hhi⟩)
  | ctrlC => exact ⟨hlo, hhi⟩
  | char c =>
    simp only [browseKey]
    split_ifs
    · exact finishBrowse_selInv _ _ (selInv_mk st _ (by omega))
    · exact finishBrowse_selInv _ _ (selInv_mk st _ (by omega))
    · exact finishBrowse_selInv _ _ (selInv_mk st _ (by omega))
    · exact finishBrowse_selInv _ _ (selInv_mk st _ (by omega))
    · exact finishBrowse_selInv _ _ (refreshConns_selInv st snap hlo hsnap)
    · exact finishBrowse_selInv _ _ (selInv_of_fields rfl rfl ⟨hlo, hhi⟩)
    · exact finishBrowse_selInv _ _ (clearSearch_selInv st ⟨hlo, hhi⟩)
    · exact finishBrowse_selInv _ _ ⟨hlo, hhi⟩
    · exact finishBrowse_selInv _ _ (selInv_of_fields rfl rfl ⟨hlo, hhi⟩)
    · exact ⟨hlo, hhi⟩
    · exact finishBrowse_selInv _ _ ⟨hlo, hhi⟩
  | backspace => exact finishBrowse_selInv _ _ ⟨hlo, hhi⟩
  | escape => exact finishBrowse_selInv _ _ ⟨hlo, hhi⟩
  | ctrlU => exact finishBrowse_selInv _ _ ⟨hlo, hhi⟩
  | other => exact finishBrowse_selInv _ _ ⟨hlo, hhi⟩

/-- One loop iteration preserves the selection invariant, provided the
event's snapshot has every tag set. -/
theorem stepTui_selInv (st : TuiState) (k : Key) (snap : List ConnRow)
    (h : tuiSelInv st) (hsnap : allTagsSet snap = true) :
    tuiSelInv (stepTui st (k, snap)) := by
  unfold stepTui handleKey
  split_ifs with hh hs
  · exact selInv_of_fields rfl rfl h
  · exact handleSearchKey_selInv st k h
  · exact browseKey_selInv st k snap h hsnap

/-- The invariant carries through any sequence of events whose snapshots
have all tags set. -/
theorem foldl_stepTui_selInv (evs : List (Key × List ConnRow)) :
    ∀ st : TuiState, tuiSelInv st →
      (∀ ev ∈ evs, allTagsSet ev.2 = true) →
      tuiSelInv (evs.foldl stepTui st) := by
  induction evs with
  | nil => intro st h _; simpa using h
  | cons ev evs ih =>
    intro st h hevs
    simp only [List.foldl_cons]
    refine ih _ ?_ (fun e he => hevs e (by simp [he]))
    rcases ev with ⟨k, snap⟩
    exact stepTui_selInv st k snap h (hevs ⟨k, snap⟩ (by simp))

/-- C9 counterexample: the claim says the cursor is clamped to
`[0, len(filtered)-1]` and is `0` on an empty filtered list, for every key
sequence including down-movement on an empty list; but pressing `j` in a
freshly opened browser over an empty store drives the cursor to `-1`
(`min(len([])-1, 0+1) = -1`). -/
theorem c9_down_on_empty_reaches_minus_one :
    (runTui [] [(Key.char 'j', [])]).filtered = [] ∧
    (runTui [] [(Key.char 'j', [])]).currentSelection = -1 := by
  exact ⟨by decide, by decide⟩

/-- C9 amended: for every event sequence whose store snapshots have every
tag set (so the live filter never raises), the selection cursor stays in
`[-1, max 0 (len(filtered)-1)]`: down-movement on an empty filtered list
reaches `-1` instead of staying at `0`, and every other key and every
filter application keeps or restores the `[0, len-1]` clamp. -/
theorem c9_selection_stays_bounded (snap0 : List ConnRow)
    (evs : List (Key × List ConnRow)) (h0 : allTagsSet snap0 = true)
    (hevs : ∀ ev ∈ evs, allTagsSet ev.2 = true) :
    tuiSelInv (runTui snap0 evs) := by
  unfold runTui
  refine foldl_stepTui_selInv evs _ ?_ hevs
  exact refreshConns_selInv initialTuiState snap0 (by decide) h0

/-- C9 witness: a concrete session over the two spec rows — search, type,
commit, then navigate — ends with the cursor in range. -/
theorem c9_witness :
    tuiSelInv (runTui [web1Row, db1Row]
      [(Key.char '/', []), (Key.char 'w', []), (Key.enter, []),
       (Key.char 'j', []), (Key.arrowDown, []), (Key.char 'G', [])]) :=
  c9_selection_stays_bounded [web1Row, db1Row] _ (by decide) (by decide)

/-- C10: the claim says applying the browser's search filter is total —
for a snapshot containing a record with an unset tag and a non-empty query
missing its alias, host and protocol, it should simply exclude the record;
but the comprehension evaluates `conn.get("tag", "").lower()` with the
stored `None` (the key is present, so the default is not used) and raises,
which the main loop reports as an error status.  Evaluated at the failing
input: query `zz` against the `web1` row with NULL tag. -/
theorem c10_filter_raises_on_null_tag :
    pyRowMatch "zz" noTagRow = .error .noneLower ∧
    filterConnections "zz" [noTagRow] = .error .noneLower ∧
    containsSub (lowerCodes "zz") (lowerCodes noTagRow.aliasName) = false ∧
    containsSub (lowerCodes "zz") (lowerCodes noTagRow.host_or_ip) = false ∧
    containsSub (lowerCodes "zz") (lowerCodes noTagRow.protocol) = false ∧
    (runTui [noTagRow]
        [(Key.char '/', []), (Key.char 'z', []), (Key.char 'z', [])]
      ).statusMessage = "Error" := by
  exact ⟨rfl, rfl, by decide, by decide, by decide, by decide⟩

end ConnManager
